import Mathlib

/-!
Verification development for the collaborative document editor backend.

The definitions below are shallow embeddings of the backend source:
* `src/backend/config/redis.js` — presence, cursor, typing and cache helpers
  (Redis hashes are modelled as insertion-ordered association lists keyed by
  field name; `hset` replaces the existing field in place or appends,
  `hdel` removes the field, mirroring Redis hash semantics);
* `src/backend/routes/documents.js` — the `PUT /:id/content` handler
  (the durable `documents` table is an association list keyed by document id;
  an SQL `UPDATE ... WHERE id = $k` is `dbUpdate`, touching only the matching
  row);
* the Socket.IO handler module — connection registry, operation
  batching/flush, and the room-scoped event handlers.  Socket.IO room
  membership is derived from each connection's `currentDocument` field, which
  the source keeps in sync with `socket.join`/`socket.leave`.
Timestamps (`Date.now()`, SQL `NOW()`) are passed in explicitly as `now : Nat`;
store-assigned chat ids are modelled by a `nextChatId` counter.
-/

namespace CollabEditor

/-- First-match lookup in an association list (JS `Map.get` / Redis `HGET`). -/
def alget {α : Type} : List (String × α) → String → Option α
  | [], _ => none
  | p :: t, k => if p.1 = k then some p.2 else alget t k

/-- Replace-or-append write (JS `Map.set` / Redis `HSET`): the first entry with
the field is replaced in place, otherwise the pair is appended at the end. -/
def hset {α : Type} : List (String × α) → String → α → List (String × α)
  | [], k, v => [(k, v)]
  | p :: t, k, v => if p.1 = k then (k, v) :: t else p :: hset t k v

/-- Field deletion (JS `Map.delete` / Redis `HDEL`). -/
def hdel {α : Type} : List (String × α) → String → List (String × α)
  | [], _ => []
  | p :: t, k => if p.1 = k then hdel t k else p :: hdel t k

/-- SQL `UPDATE ... SET ... WHERE id = k`: applies `f` to the value of every
row whose key is `k`, leaves all other rows untouched, inserts nothing. -/
def dbUpdate {α : Type} : List (String × α) → String → (α → α) → List (String × α)
  | [], _, _ => []
  | p :: t, k, f => if p.1 = k then (p.1, f p.2) :: dbUpdate t k f else p :: dbUpdate t k f

theorem alget_hset_self {α : Type} (l : List (String × α)) (k : String) (v : α) :
    alget (hset l k v) k = some v := by
  induction l with
  | nil => simp [hset, alget]
  | cons p t ih =>
    by_cases hp : p.1 = k
    · simp [hset, hp, alget]
    · simp [hset, hp, alget, ih]

theorem alget_hset_ne {α : Type} (l : List (String × α)) (k k' : String) (v : α)
    (h : k' ≠ k) : alget (hset l k v) k' = alget l k' := by
  induction l with
  | nil => simp [hset, alget, Ne.symm h]
  | cons p t ih =>
    by_cases hp : p.1 = k
    · simp [hset, hp, alget, Ne.symm h]
    · by_cases hp' : p.1 = k' <;> simp [hset, hp, alget, hp', ih, h]

theorem alget_hdel_self {α : Type} (l : List (String × α)) (k : String) :
    alget (hdel l k) k = none := by
  induction l with
  | nil => simp [hdel, alget]
  | cons p t ih =>
    by_cases hp : p.1 = k
    · simp [hdel, hp, ih]
    · simp [hdel, hp, alget, ih]

theorem alget_hdel_ne {α : Type} (l : List (String × α)) (k k' : String)
    (h : k' ≠ k) : alget (hdel l k) k' = alget l k' := by
  induction l with
  | nil => simp [hdel]
  | cons p t ih =>
    by_cases hp : p.1 = k
    · simp [hdel, hp, alget, Ne.symm h, ih]
    · by_cases hp' : p.1 = k' <;> simp [hdel, hp, alget, hp', ih, h]

theorem alget_mem {α : Type} {l : List (String × α)} {k : String} {v : α}
    (h : alget l k = some v) : (k, v) ∈ l := by
  induction l with
  | nil => simp [alget] at h
  | cons p t ih =>
    by_cases hp : p.1 = k
    · simp [alget, hp] at h
      subst h
      rw [← hp]
      exact List.mem_cons_self _ _
    · simp [alget, hp] at h
      exact List.mem_cons_of_mem _ (ih h)

theorem hset_eq_append {α : Type} {l : List (String × α)} {k : String} (v : α)
    (h : ∀ p ∈ l, p.1 ≠ k) : hset l k v = l ++ [(k, v)] := by
  induction l with
  | nil => simp [hset]
  | cons p t ih =>
    have hp : p.1 ≠ k := h p (List.mem_cons_self _ _)
    simp [hset, hp, ih (fun q hq => h q (List.mem_cons_of_mem _ hq))]

theorem alget_dbUpdate_self {α : Type} {l : List (String × α)} {k : String}
    {v : α} (f : α → α) (h : alget l k = some v) :
    alget (dbUpdate l k f) k = some (f v) := by
  induction l with
  | nil => simp [alget] at h
  | cons p t ih =>
    by_cases hp : p.1 = k
    · simp [alget, hp] at h
      simp [dbUpdate, alget, hp, h]
    · simp [alget, hp] at h
      simp [dbUpdate, alget, hp, ih h]

theorem alget_dbUpdate_ne {α : Type} (l : List (String × α)) (k k' : String)
    (f : α → α) (h : k' ≠ k) : alget (dbUpdate l k f) k' = alget l k' := by
  induction l with
  | nil => simp [dbUpdate]
  | cons p t ih =>
    by_cases hp : p.1 = k
    · simp [dbUpdate, alget, hp, Ne.symm h, ih]
    · by_cases hp' : p.1 = k' <;> simp [dbUpdate, alget, hp, hp', ih, h]

/-! ## JavaScript string trimming (`String.prototype.trim`) -/

/-- Characters removed by JS `trim`: ECMAScript WhiteSpace and LineTerminator
code points (space, tab, LF, CR, VT, FF, NBSP, BOM, LS, PS). -/
def isJsWhitespace (c : Char) : Bool :=
  c == ' ' || c == '\t' || c == '\n' || c == '\r' ||
  c.toNat == 11 || c.toNat == 12 || c.toNat == 160 ||
  c.toNat == 0xFEFF || c.toNat == 0x2028 || c.toNat == 0x2029

/-- JS `message.trim()`: strip leading and trailing whitespace. -/
def jsTrim (s : String) : String :=
  String.mk (((s.data.dropWhile isJsWhitespace).reverse.dropWhile isJsWhitespace).reverse)

/-! ## Presence registry (`redis.js`: addUserToDocument / removeUserFromDocument /
getDocumentPresence).  The Redis hash `presence:doc:{documentId}` maps a user-id
field to a JSON value `{userId, username, joinedAt}`. -/

structure PresenceEntry where
  userId : String
  username : String
  joinedAt : Nat
deriving Repr, DecidableEq

/-- `addUserToDocument(documentId, userId, username)`: the source first walks
the hash and `HDEL`s every field whose stored value has the same `userId` OR
the same `username` (fields are the stored `userId`, so this is the filter
below), then `HSET`s the new entry and refreshes the key TTL (the TTL itself is
not part of the hash contents and is not modelled). -/
def addUserToDocument (h : List (String × PresenceEntry)) (userId username : String)
    (now : Nat) : List (String × PresenceEntry) :=
  hset (h.filter (fun p => !(p.2.userId == userId || p.2.username == username)))
    userId ⟨userId, username, now⟩

/-- `removeUserFromDocument(documentId, userId)`: `HDEL` of the user's field. -/
def removeUserFromDocument (h : List (String × PresenceEntry)) (userId : String) :
    List (String × PresenceEntry) :=
  hdel h userId

/-- `getDocumentPresence`: `HGETALL` values in insertion order. -/
def getDocumentPresence (h : List (String × PresenceEntry)) : List PresenceEntry :=
  h.map (fun p => p.2)

/-- One client-visible presence operation on a single document's hash. -/
inductive PresOp where
  | join (userId username : String) (now : Nat)
  | leave (userId : String)
deriving Repr, DecidableEq

def applyPresOp (h : List (String × PresenceEntry)) : PresOp → List (String × PresenceEntry)
  | .join u n t => addUserToDocument h u n t
  | .leave u => removeUserFromDocument h u

/-- Run a sequence of join/leave operations starting from an empty hash. -/
def runPresOps (ops : List PresOp) : List (String × PresenceEntry) :=
  ops.foldl applyPresOp []

/-- Two presence rows carry different identities: different user ids and
different display names. -/
def DistinctIdent (a b : String × PresenceEntry) : Prop :=
  a.2.userId ≠ b.2.userId ∧ a.2.username ≠ b.2.username

/-- Invariant of a presence hash: pairwise distinct identities, and every
field name equals the stored entry's user id (as written by `addUserToDocument`). -/
def PresInv (h : List (String × PresenceEntry)) : Prop :=
  h.Pairwise DistinctIdent ∧ ∀ p ∈ h, p.1 = p.2.userId

theorem presInv_nil : PresInv [] := ⟨List.Pairwise.nil, by simp⟩

theorem hdel_sublist {α : Type} (l : List (String × α)) (k : String) :
    (hdel l k).Sublist l := by
  induction l with
  | nil => simp [hdel]
  | cons p t ih =>
    by_cases hc : p.1 = k
    · simp only [hdel, if_pos hc]
      exact ih.cons _
    · simp only [hdel, if_neg hc]
      exact ih.cons₂ _

theorem presInv_join {h : List (String × PresenceEntry)} (u n : String) (t : Nat)
    (hi : PresInv h) : PresInv (addUserToDocument h u n t) := by
  obtain ⟨hp, hk⟩ := hi
  unfold addUserToDocument
  have hsub : (h.filter (fun p => !(p.2.userId == u || p.2.username == n))).Sublist h :=
    List.filter_sublist h
  have hp' := hp.sublist hsub
  have hmem : ∀ p ∈ h.filter (fun p => !(p.2.userId == u || p.2.username == n)),
      p ∈ h ∧ p.2.userId ≠ u ∧ p.2.username ≠ n := by
    intro p hpf
    have h0 := List.mem_filter.mp hpf
    have h1 := h0.2
    simp at h1
    exact ⟨h0.1, h1.1, h1.2⟩
  have hnokey : ∀ p ∈ h.filter (fun p => !(p.2.userId == u || p.2.username == n)),
      p.1 ≠ u := by
    intro p hpf
    have h1 := (hmem p hpf).2.1
    have h2 := hk p (hmem p hpf).1
    rw [h2]; exact h1
  rw [hset_eq_append _ hnokey]
  constructor
  · rw [List.pairwise_append]
    refine ⟨hp', List.pairwise_singleton _ _, ?_⟩
    intro a ha b hb
    have hb' : b = (u, (⟨u, n, t⟩ : PresenceEntry)) := by simpa using hb
    subst hb'
    exact ⟨(hmem a ha).2.1, (hmem a ha).2.2⟩
  · intro p hpm
    rcases List.mem_append.mp hpm with hin | hin
    · exact hk p (hmem p hin).1
    · have : p = (u, (⟨u, n, t⟩ : PresenceEntry)) := by simpa using hin
      subst this; rfl

theorem presInv_leave {h : List (String × PresenceEntry)} (u : String)
    (hi : PresInv h) : PresInv (removeUserFromDocument h u) := by
  obtain ⟨hp, hk⟩ := hi
  unfold removeUserFromDocument
  exact ⟨hp.sublist (hdel_sublist h u), fun p hpm => hk p ((hdel_sublist h u).mem hpm)⟩

theorem presInv_run (ops : List PresOp) : PresInv (runPresOps ops) := by
  have hgen : ∀ (l : List PresOp) (h : List (String × PresenceEntry)),
      PresInv h → PresInv (l.foldl applyPresOp h) := by
    intro l
    induction l with
    | nil => intro h hi; exact hi
    | cons op t ih =>
      intro h hi
      cases op with
      | join u n tm => exact ih _ (presInv_join u n tm hi)
      | leave u => exact ih _ (presInv_leave u hi)
  exact hgen ops [] presInv_nil

/-- Membership after an `hset`: either an original entry or the written pair. -/
theorem mem_hset {α : Type} (l : List (String × α)) (k : String) (v : α) :
    ∀ p ∈ hset l k v, p ∈ l ∨ p = (k, v) := by
  induction l with
  | nil =>
    intro p hp
    simp [hset] at hp
    right; exact hp
  | cons q tl ih =>
    intro p hp
    by_cases hc : q.1 = k
    · simp only [hset, if_pos hc] at hp
      rcases List.mem_cons.mp hp with hh | hh
      · right; exact hh
      · left; exact List.mem_cons_of_mem _ hh
    · simp only [hset, if_neg hc] at hp
      rcases List.mem_cons.mp hp with hh | hh
      · left; rw [hh]; exact List.mem_cons_self _ _
      · rcases ih p hh with h2 | h2
        · left; exact List.mem_cons_of_mem _ h2
        · right; exact h2

/-- Every entry of a post-join hash that matches the joining identity (same
user id or same display name) is the freshly inserted entry: the join evicted
all others. -/
theorem addUser_evicts (h : List (String × PresenceEntry)) (u n : String) (t : Nat) :
    ∀ p ∈ addUserToDocument h u n t, (p.2.userId = u ∨ p.2.username = n) →
      p = (u, ⟨u, n, t⟩) := by
  intro p hpm hmatch
  unfold addUserToDocument at hpm
  rcases mem_hset _ _ _ p hpm with hin | heq
  · have h1 := (List.mem_filter.mp hin).2
    simp at h1
    cases hmatch with
    | inl h2 => exact absurd h2 h1.1
    | inr h2 => exact absurd h2 h1.2
  · exact heq

/-! ## Typing indicators (`redis.js`: setTypingIndicator / getTypingIndicators).
The Redis hash `typing:doc:{documentId}` maps a user-id field to
`{username, timestamp}`; `EXPIRE key 30` sets a key-level TTL of 30 seconds,
and the read filters entries to the last 10000 milliseconds. -/

structure TypingEntry where
  username : String
  timestamp : Nat
deriving Repr, DecidableEq

/-- `expire(key, 30)` — seconds. -/
def TYPING_TTL_SECONDS : Nat := 30

/-- `Date.now() - parsed.timestamp < 10000` — milliseconds. -/
def TYPING_STALE_WINDOW_MS : Nat := 10000

/-- `setTypingIndicator(documentId, userId, username, isTyping)`: on
`isTyping` the entry is `HSET` with the current timestamp and the key expiry
is reset to 30 seconds from now (returned as an absolute millisecond instant);
otherwise the entry is `HDEL`ed immediately and the expiry is untouched. -/
def setTypingIndicator (h : List (String × TypingEntry)) (expiresAt : Option Nat)
    (userId username : String) (isTyping : Bool) (now : Nat) :
    List (String × TypingEntry) × Option Nat :=
  if isTyping then
    (hset h userId ⟨username, now⟩, some (now + TYPING_TTL_SECONDS * 1000))
  else
    (hdel h userId, expiresAt)

/-- `getTypingIndicators(documentId)`: keep only entries updated within the
staleness window and project to `{userId, username}`. -/
def getTypingIndicators (h : List (String × TypingEntry)) (now : Nat) :
    List (String × String) :=
  (h.filter (fun p => now - p.2.timestamp < TYPING_STALE_WINDOW_MS)).map
    (fun p => (p.1, p.2.username))

/-! ## Durable documents table and the `PUT /:id/content` handler
(`routes/documents.js`). -/

structure DocRecord where
  title : String
  content : String
  version : Int
  updatedAt : Nat
deriving Repr, DecidableEq

inductive UpdateContentResult where
  | notFound
  | conflict (currentVersion clientVersion : Int)
  | ok (id content : String) (version : Int) (updatedAt : Nat)
deriving Repr, DecidableEq

/-! ## Operation batching (socket module: batchDocumentOperation /
flushDocumentOperations). -/

/-- A queued edit operation, as pushed by `batchDocumentOperation`. -/
structure FlushOp where
  documentId : String
  userId : String
  type : String
  position : Int
  content : String
  length : Int
  finalContent : String
deriving Repr, DecidableEq

/-- A row of the append-only `document_operations` table. -/
structure LogEntry where
  documentId : String
  userId : String
  operationType : String
  position : Int
  content : String
  length : Int
deriving Repr, DecidableEq

/-- The `INSERT INTO document_operations` performed for one queued operation. -/
def toLogEntry (op : FlushOp) : LogEntry :=
  ⟨op.documentId, op.userId, op.type, op.position, op.content, op.length⟩

/-! ## Connections and server state (socket module). -/

/-- An `activeConnections` entry: `{userId, username, currentDocument}`. -/
structure Conn where
  userId : String
  username : String
  currentDocument : Option String
deriving Repr, DecidableEq

/-- A persisted `chat_messages` row (ids are store-assigned; modelled by a
counter). -/
structure ChatRow where
  id : Nat
  documentId : String
  userId : String
  username : String
  message : String
  createdAt : Nat
deriving Repr, DecidableEq

/-- A stored cursor value: the client-sent cursor fields (kept opaque) spread
with `username` and `timestamp`, as written by the cursorMove handler. -/
structure StoredCursor where
  cursorData : String
  username : String
  timestamp : Nat
deriving Repr, DecidableEq

/-- The whole observable state: the `activeConnections` map, the durable
tables (`documents`, `document_operations`, `chat_messages`), the
`operationBatches` map, and the Redis-held ephemeral state (presence, cursors,
typing, document cache).  `errLog` records `console.error` calls. -/
structure ServerState where
  conns : List (String × Conn)
  docs : List (String × DocRecord)
  opLog : List LogEntry
  chat : List ChatRow
  nextChatId : Nat
  batches : List (String × List FlushOp)
  presence : List (String × List (String × PresenceEntry))
  cursors : List (String × List (String × StoredCursor))
  typing : List (String × (List (String × TypingEntry) × Option Nat))
  cache : List (String × DocRecord)
  errLog : List String
deriving Repr, DecidableEq

/-- `PUT /:id/content` (after authentication): read the stored version; if the
supplied `version` is truthy (present and nonzero) and differs from the stored
one, answer 409 with both versions and change nothing; otherwise overwrite the
content, increment the version by 1, refresh `updated_at`, and invalidate the
cache entry. -/
def updateContentHandler (st : ServerState) (id content : String)
    (version : Option Int) (now : Nat) : ServerState × UpdateContentResult :=
  match alget st.docs id with
  | none => (st, .notFound)
  | some doc =>
    match version with
    | some v =>
      if v ≠ 0 ∧ v ≠ doc.version then
        (st, .conflict doc.version v)
      else
        ({ st with
            docs := dbUpdate st.docs id
              (fun d => { d with content := content, version := d.version + 1, updatedAt := now }),
            cache := hdel st.cache id },
         .ok id content (doc.version + 1) now)
    | none =>
        ({ st with
            docs := dbUpdate st.docs id
              (fun d => { d with content := content, version := d.version + 1, updatedAt := now }),
            cache := hdel st.cache id },
         .ok id content (doc.version + 1) now)

/-- `batchDocumentOperation(documentId, operation)`: create the queue on first
use and push the operation at the end (the flush timer is re-armed; timers are
modelled by invoking `flushDocumentOperations` explicitly). -/
def batchDocumentOperation (st : ServerState) (documentId : String) (op : FlushOp) :
    ServerState :=
  { st with
      batches := hset st.batches documentId
        ((alget st.batches documentId).getD [] ++ [op]) }

/-- `flushDocumentOperations(documentId)`: if the queue is absent or empty,
return.  Otherwise insert every queued operation into `document_operations` in
queue order, update the document's content to the last operation's
`finalContent` with `version = version + 1`, delete the queue entry, and
invalidate the cache.  `storeOk = false` models an unavailable durable store:
the first query throws, the `catch` logs the error, and nothing else happens
— in particular the queue entry is **not** deleted. -/
def flushDocumentOperations (st : ServerState) (documentId : String)
    (storeOk : Bool) (now : Nat) : ServerState :=
  match alget st.batches documentId with
  | none => st
  | some operations =>
    match operations.getLast? with
    | none => st
    | some lastOp =>
      if storeOk then
        { st with
            opLog := st.opLog ++ operations.map toLogEntry,
            docs := dbUpdate st.docs documentId
              (fun d => { d with content := lastOp.finalContent, version := d.version + 1, updatedAt := now }),
            batches := hdel st.batches documentId,
            cache := hdel st.cache documentId }
      else
        { st with errLog := st.errLog ++ ["Error flushing document operations"] }

/-! ## Outbound events and broadcast targets.  Socket.IO room membership is
derived from `Conn.currentDocument`, which the source keeps in lock-step with
`socket.join`/`socket.leave`.  `socket.to(room).emit` excludes the sender;
`io.to(room).emit` reaches the whole room; `socket.emit` reaches the sender;
`io.emit` reaches every connection. -/

inductive Target where
  | sender (connId : String)
  | roomExcept (senderId documentId : String)
  | room (documentId : String)
  | all
deriving Repr, DecidableEq

structure EditOp where
  type : String
  position : Int
  content : String
  length : Int
deriving Repr, DecidableEq

inductive OutEvent where
  | documentJoined (documentId : String) (presence : List PresenceEntry)
      (cursors : List (String × StoredCursor))
  | userJoined (userId username : String)
  | userLeft (userId username : String)
  | documentEdit (userId username : String) (operation : EditOp) (content : String)
      (title : Option String)
  | cursorMove (userId username cursor : String)
  | chatMessage (id : Nat) (userId username message : String) (createdAt : Nat)
  | typingEvt (userId username : String) (isTyping : Bool) (type : String)
      (allTyping : List (String × String))
  | titleChange (documentId title userId username : String)
  | documentSync (document : DocRecord) (operations : List LogEntry)
      (presence : List PresenceEntry) (cursors : List (String × StoredCursor))
  | documentUpdated (documentId title content : String) (version : Int)
      (chatMessageCount activeParticipants : Nat)
  | errorEvt (message : String)
deriving Repr, DecidableEq

structure Emit where
  target : Target
  event : OutEvent
deriving Repr, DecidableEq

def isUserLeftEvt : OutEvent → Bool
  | .userLeft _ _ => true
  | _ => false

/-- The connections currently in a document's room. -/
def roomMembers (conns : List (String × Conn)) (documentId : String) : List String :=
  (conns.filter (fun p => p.2.currentDocument == some documentId)).map (fun p => p.1)

/-- The delivery set of a broadcast target. -/
def recipients (conns : List (String × Conn)) : Target → List String
  | .sender c => [c]
  | .roomExcept s d => (roomMembers conns d).filter (fun c => c != s)
  | .room d => roomMembers conns d
  | .all => conns.map (fun p => p.1)

/-- The guard shared by every room-scoped handler:
`const connection = activeConnections.get(socket.id);
 if (!connection || connection.currentDocument !== documentId) return;` -/
def roomGuard (st : ServerState) (connId documentId : String) : Option Conn :=
  match alget st.conns connId with
  | none => none
  | some conn => if conn.currentDocument = some documentId then some conn else none

/-- Inbound `documentEdit` payload `{documentId, operation, content, title}`. -/
structure DocumentEditData where
  documentId : String
  operation : EditOp
  content : String
  title : Option String
deriving Repr, DecidableEq

/-- JS truthiness of a possibly-absent string (`title`). -/
def truthyStr : Option String → Bool
  | none => false
  | some s => s != ""

/-- The `documentEdit` handler: guard; on a title-operation update the title
directly, otherwise queue the operation for batching; then broadcast the edit
to the rest of the room. -/
def documentEditHandler (st : ServerState) (connId : String)
    (data : DocumentEditData) (now : Nat) : ServerState × List Emit :=
  match roomGuard st connId data.documentId with
  | none => (st, [])
  | some conn =>
    let st1 :=
      if data.operation.type = "title" ∧ truthyStr data.title then
        { st with
            docs := dbUpdate st.docs data.documentId
              (fun d => { d with title := data.title.getD "", updatedAt := now }) }
      else
        batchDocumentOperation st data.documentId
          { documentId := data.documentId, userId := conn.userId,
            type := data.operation.type, position := data.operation.position,
            content := data.operation.content, length := data.operation.length,
            finalContent := data.content }
    (st1,
     [⟨.roomExcept connId data.documentId,
       .documentEdit conn.userId conn.username data.operation data.content data.title⟩])

/-- The `cursorMove` handler: guard; store the cursor (spread with username
and timestamp) under `cursor:doc:{documentId}:{userId}`; broadcast to the rest
of the room. -/
def cursorMoveHandler (st : ServerState) (connId documentId cursor : String)
    (now : Nat) : ServerState × List Emit :=
  match roomGuard st connId documentId with
  | none => (st, [])
  | some conn =>
    ({ st with
        cursors := hset st.cursors documentId
          (hset ((alget st.cursors documentId).getD []) conn.userId
            ⟨cursor, conn.username, now⟩) },
     [⟨.roomExcept connId documentId, .cursorMove conn.userId conn.username cursor⟩])

/-- The `chatMessage` handler: guard; drop empty or whitespace-only messages;
otherwise insert the trimmed message into `chat_messages` and broadcast the
stored row (store-assigned id, stored message, stored timestamp) to the whole
room, sender included. -/
def chatMessageHandler (st : ServerState) (connId documentId message : String)
    (now : Nat) : ServerState × List Emit :=
  match roomGuard st connId documentId with
  | none => (st, [])
  | some conn =>
    if message = "" ∨ (jsTrim message).length = 0 then (st, [])
    else
      ({ st with
          chat := st.chat ++
            [⟨st.nextChatId, documentId, conn.userId, conn.username, jsTrim message, now⟩],
          nextChatId := st.nextChatId + 1 },
       [⟨.room documentId,
         .chatMessage st.nextChatId conn.userId conn.username (jsTrim message) now⟩])

/-- The `typing` handler: guard; write the indicator; read back the live
indicators; broadcast to the rest of the room. -/
def typingHandler (st : ServerState) (connId documentId : String)
    (isTyping : Bool) (ty : String) (now : Nat) : ServerState × List Emit :=
  match roomGuard st connId documentId with
  | none => (st, [])
  | some conn =>
    let cur := (alget st.typing documentId).getD ([], none)
    let res := setTypingIndicator cur.1 cur.2 conn.userId conn.username isTyping now
    ({ st with typing := hset st.typing documentId res },
     [⟨.roomExcept connId documentId,
       .typingEvt conn.userId conn.username isTyping ty (getTypingIndicators res.1 now)⟩])

/-- The `titleChange` handler: guard; update the title unconditionally;
broadcast to the rest of the room (the payload's userId/username are echoed). -/
def titleChangeHandler (st : ServerState) (connId documentId title userId username : String)
    (now : Nat) : ServerState × List Emit :=
  match roomGuard st connId documentId with
  | none => (st, [])
  | some _conn =>
    ({ st with
        docs := dbUpdate st.docs documentId
          (fun d => { d with title := title, updatedAt := now }) },
     [⟨.roomExcept connId documentId, .titleChange documentId title userId username⟩])

/-- The `syncDocument` handler: guard; unknown document answers a scoped
`error` to the sender; otherwise send the document row, the last 100 logged
operations oldest-first, and the current presence and cursors to the sender. -/
def syncDocumentHandler (st : ServerState) (connId documentId : String) :
    ServerState × List Emit :=
  match roomGuard st connId documentId with
  | none => (st, [])
  | some _conn =>
    match alget st.docs documentId with
    | none => (st, [⟨.sender connId, .errorEvt "Document not found"⟩])
    | some doc =>
      (st,
       [⟨.sender connId,
         .documentSync doc
           (((st.opLog.filter (fun e => e.documentId == documentId)).reverse.take 100).reverse)
           (getDocumentPresence ((alget st.presence documentId).getD []))
           ((alget st.cursors documentId).getD [])⟩])

/-- `broadcastDocumentUpdate(documentId, io)`: re-read the document and its
chat-message count, and `io.emit` a summary (including the live participant
count) to every connection; a missing document only logs. -/
def broadcastDocumentUpdate (st : ServerState) (documentId : String) : List Emit :=
  match alget st.docs documentId with
  | none => []
  | some doc =>
    [⟨.all,
      .documentUpdated documentId doc.title doc.content doc.version
        ((st.chat.filter (fun m => m.documentId == documentId)).length)
        (getDocumentPresence ((alget st.presence documentId).getD [])).length⟩]

/-- The connection-map step of `joinDocument`: leave the previous socket room
(membership is derived from `currentDocument`) and point the connection at the
new document.  An unknown connection is left untracked, as in the source. -/
def joinConns (st : ServerState) (connId documentId : String) : ServerState :=
  match alget st.conns connId with
  | some conn =>
    { st with conns := hset st.conns connId { conn with currentDocument := some documentId } }
  | none => st

/-- The `joinDocument` handler: switch rooms, add the user to the new
document's presence, send `documentJoined` to the joiner, `userJoined` to the
new room's peers, and the global `documentUpdated` summary.  No presence
removal or departure notification happens for the previous room. -/
def joinDocumentHandler (st : ServerState) (connId userId username documentId : String)
    (now : Nat) : ServerState × List Emit :=
  let st1 := joinConns st connId documentId
  let h2 := addUserToDocument ((alget st1.presence documentId).getD []) userId username now
  let st2 := { st1 with presence := hset st1.presence documentId h2 }
  (st2,
   ⟨.sender connId,
     .documentJoined documentId (getDocumentPresence h2)
       ((alget st2.cursors documentId).getD [])⟩ ::
   ⟨.roomExcept connId documentId, .userJoined userId username⟩ ::
   broadcastDocumentUpdate st2 documentId)

/-! ## Concrete states used by witnesses and counterexamples. -/

def emptyState : ServerState :=
  { conns := [], docs := [], opLog := [], chat := [], nextChatId := 0,
    batches := [], presence := [], cursors := [], typing := [], cache := [],
    errLog := [] }

def docT : DocRecord := { title := "T", content := "a", version := 1, updatedAt := 0 }

def stC1 : ServerState := { emptyState with docs := [("d", docT)] }

def opW1 : FlushOp :=
  { documentId := "d", userId := "u1", type := "insert", position := 0,
    content := "he", length := 2, finalContent := "he" }

def opW2 : FlushOp :=
  { documentId := "d", userId := "u1", type := "insert", position := 2,
    content := "llo", length := 3, finalContent := "hello" }

def stW : ServerState :=
  { emptyState with
      docs := [("d", docT)],
      batches := [("d", [opW1, opW2])],
      cache := [("d", docT)] }

def stC5 : ServerState :=
  { emptyState with docs := [("d", docT)], batches := [("d", [opW1])] }

def connA : Conn := { userId := "u1", username := "alice", currentDocument := some "A" }

def connB : Conn := { userId := "u2", username := "bob", currentDocument := some "A" }

def stC6 : ServerState :=
  { emptyState with
      conns := [("c1", connA), ("c2", connB)],
      docs := [("A", docT), ("B", { docT with title := "U" })],
      presence := [("A", [("u1", ⟨"u1", "alice", 0⟩), ("u2", ⟨"u2", "bob", 0⟩)])] }

def connC : Conn := { userId := "u3", username := "carol", currentDocument := none }

def stC4 : ServerState :=
  { emptyState with
      conns := [("c1", { connA with currentDocument := some "D" }),
                ("c2", { connB with currentDocument := some "D" }),
                ("c3", connC)],
      docs := [("D", docT)] }

def dataC4 : DocumentEditData :=
  { documentId := "D", operation := { type := "insert", position := 0, content := "x", length := 1 },
    content := "x", title := none }

/-! ## Claim theorems. -/

/-- C3: after any sequence of join and leave operations the per-document
presence hash contains at most one entry per user id and at most one entry per
display name (pairwise-distinct identities), and a join evicts every existing
entry whose user id or display name equals the joining identity before
inserting the new entry (any matching entry of the post-join hash is the new
entry itself). -/
theorem claim_C3 :
    (∀ ops : List PresOp, (runPresOps ops).Pairwise DistinctIdent)
    ∧ (∀ (h : List (String × PresenceEntry)) (u n : String) (t : Nat),
        ∀ p ∈ addUserToDocument h u n t, (p.2.userId = u ∨ p.2.username = n) →
          p = (u, ⟨u, n, t⟩)) :=
  ⟨fun ops => (presInv_run ops).1, addUser_evicts⟩

/-- C3 witness: concrete instances of both conjuncts — a rejoin under the same
display name, and a two-user run of joins. -/
theorem claim_C3_witness :
    (runPresOps [PresOp.join "u1" "alice" 0, PresOp.join "u2" "bob" 1]).Pairwise DistinctIdent
    ∧ (("u2", (⟨"u2", "alice", 3⟩ : PresenceEntry)) = ("u2", ⟨"u2", "alice", 3⟩)) := by
  refine ⟨claim_C3.1 _, ?_⟩
  exact claim_C3.2 [("u1", ⟨"u1", "alice", 0⟩)] "u2" "alice" 3
    ("u2", ⟨"u2", "alice", 3⟩) (by decide) (Or.inr rfl)

/-- C7: `isTyping=false` removes the (document, user) typing entry
immediately; `isTyping=true` stores the entry with the current timestamp and
resets the key TTL to 30 seconds; the read returns exactly the entries whose
last update is within the 10-second application window, each as
`(userId, username)`; and the application window is strictly tighter than the
TTL. -/
theorem claim_C7 : ∀ (h : List (String × TypingEntry)) (expiresAt : Option Nat)
    (u n : String) (now : Nat),
    alget (setTypingIndicator h expiresAt u n false now).1 u = none
    ∧ (setTypingIndicator h expiresAt u n true now).2 =
        some (now + TYPING_TTL_SECONDS * 1000)
    ∧ alget (setTypingIndicator h expiresAt u n true now).1 u = some ⟨n, now⟩
    ∧ (∀ uid uname, (uid, uname) ∈ getTypingIndicators h now ↔
        ∃ e : TypingEntry, (uid, e) ∈ h ∧ e.username = uname ∧
          now - e.timestamp < TYPING_STALE_WINDOW_MS)
    ∧ TYPING_STALE_WINDOW_MS < TYPING_TTL_SECONDS * 1000 := by
  intro h expiresAt u n now
  refine ⟨?_, rfl, ?_, ?_, by decide⟩
  · simp [setTypingIndicator, alget_hdel_self]
  · simp [setTypingIndicator, alget_hset_self]
  · intro uid uname
    constructor
    · intro hm
      rcases List.mem_map.mp hm with ⟨p, hpf, hpe⟩
      rcases List.mem_filter.mp hpf with ⟨hph, hcond⟩
      have he1 : p.1 = uid := congrArg Prod.fst hpe
      have he2 : p.2.username = uname := congrArg Prod.snd hpe
      refine ⟨p.2, ?_, he2, ?_⟩
      · rw [← he1]; exact hph
      · exact of_decide_eq_true hcond
    · rintro ⟨e, he, hn, hw⟩
      exact List.mem_map.mpr
        ⟨(uid, e), List.mem_filter.mpr ⟨he, decide_eq_true hw⟩, by rw [hn]⟩

/-- C7 witness: the theorem instantiated at concrete hashes and clock values. -/
theorem claim_C7_witness :
    alget (setTypingIndicator [("u9", ⟨"zoe", 0⟩)] none "u9" "zoe" false 5).1 "u9" = none
    ∧ (setTypingIndicator [] none "u1" "alice" true 5).2 =
        some (5 + TYPING_TTL_SECONDS * 1000)
    ∧ alget (setTypingIndicator [] none "u1" "alice" true 5).1 "u1" = some ⟨"alice", 5⟩
    ∧ (("u9", "zoe") ∈ getTypingIndicators [("u9", ⟨"zoe", 0⟩)] 5 ↔
        ∃ e : TypingEntry, ("u9", e) ∈ [("u9", (⟨"zoe", 0⟩ : TypingEntry))] ∧
          e.username = "zoe" ∧ 5 - e.timestamp < TYPING_STALE_WINDOW_MS) := by
  have h1 := claim_C7 [("u9", ⟨"zoe", 0⟩)] none "u9" "zoe" 5
  have h2 := claim_C7 ([] : List (String × TypingEntry)) none "u1" "alice" 5
  exact ⟨h1.1, h2.2.1, h2.2.2.1, h1.2.2.2.1 "u9" "zoe"⟩

/-- C1 (amended): for a supplied **nonzero** clientVersion, equality with the
stored version makes the update succeed — content overwritten, version exactly
incremented — while a differing nonzero clientVersion yields a 409 carrying
both versions and leaves the state untouched.  (A supplied clientVersion of 0
is falsy in the source's `version && version !== currentVersion` guard and
bypasses the check; see the counterexample.) -/
theorem claim_C1 : ∀ (st : ServerState) (id content : String) (doc : DocRecord)
    (now : Nat) (v : Int),
    alget st.docs id = some doc →
    v ≠ 0 →
    (v = doc.version →
      updateContentHandler st id content (some v) now =
        ({ st with
            docs := dbUpdate st.docs id
              (fun d => { d with content := content, version := d.version + 1, updatedAt := now }),
            cache := hdel st.cache id },
         .ok id content (doc.version + 1) now)
      ∧ alget (updateContentHandler st id content (some v) now).1.docs id =
          some { doc with content := content, version := doc.version + 1, updatedAt := now })
    ∧ (v ≠ doc.version →
      updateContentHandler st id content (some v) now = (st, .conflict doc.version v)) := by
  intro st id content doc now v hd hv
  constructor
  · intro heq
    have hcond : ¬(v ≠ 0 ∧ v ≠ doc.version) := fun hc => hc.2 heq
    have hmain : updateContentHandler st id content (some v) now =
        ({ st with
            docs := dbUpdate st.docs id
              (fun d => { d with content := content, version := d.version + 1, updatedAt := now }),
            cache := hdel st.cache id },
         .ok id content (doc.version + 1) now) := by
      simp [updateContentHandler, hd, hcond]
    refine ⟨hmain, ?_⟩
    rw [hmain]
    exact alget_dbUpdate_self _ hd
  · intro hne
    simp [updateContentHandler, hd, hv, hne]

/-- C1 counterexample: the claim as stated is false — a supplied clientVersion
of 0 differs from the stored version 1, yet the call succeeds and overwrites
the content instead of failing with a conflict. -/
theorem claim_C1_counterexample :
    (updateContentHandler stC1 "d" "b" (some 0) 9).2 = .ok "d" "b" 2 9
    ∧ alget (updateContentHandler stC1 "d" "b" (some 0) 9).1.docs "d" =
        some { title := "T", content := "b", version := 2, updatedAt := 9 }
    ∧ (0 : Int) ≠ 1 := by
  refine ⟨by decide, by decide, by decide⟩

/-- C1 witness: the amended theorem applied at a stored version of 1 with
client versions 5 (conflict) and 1 (success). -/
theorem claim_C1_witness :
    updateContentHandler stC1 "d" "b" (some 5) 9 = (stC1, .conflict 1 5)
    ∧ alget (updateContentHandler stC1 "d" "b" (some 1) 9).1.docs "d" =
        some { title := "T", content := "b", version := 2, updatedAt := 9 } := by
  have h1 := claim_C1 stC1 "d" "b" docT 9 5 (by decide) (by decide)
  have h2 := claim_C1 stC1 "d" "b" docT 9 1 (by decide) (by decide)
  exact ⟨h1.2 (by decide), (h2.1 (by decide)).2⟩

/-- C8: a falsy supplied clientVersion (absent or 0) makes the content-update
path skip the conflict check entirely: the result is never a ConflictError,
and when the document exists the content is overwritten with the version still
incremented by 1. -/
theorem claim_C8 : ∀ (st : ServerState) (id content : String) (now : Nat)
    (v : Option Int) (cv clv : Int),
    (v = none ∨ v = some 0) →
    (updateContentHandler st id content v now).2 ≠ UpdateContentResult.conflict cv clv
    ∧ (∀ doc, alget st.docs id = some doc →
        updateContentHandler st id content v now =
          ({ st with
              docs := dbUpdate st.docs id
                (fun d => { d with content := content, version := d.version + 1, updatedAt := now }),
              cache := hdel st.cache id },
           .ok id content (doc.version + 1) now)) := by
  intro st id content now v cv clv hv
  rcases hv with rfl | rfl
  · constructor
    · cases hd : alget st.docs id with
      | none => simp [updateContentHandler, hd]
      | some doc => simp [updateContentHandler, hd]
    · intro doc hd
      simp [updateContentHandler, hd]
  · constructor
    · cases hd : alget st.docs id with
      | none => simp [updateContentHandler, hd]
      | some doc => simp [updateContentHandler, hd]
    · intro doc hd
      simp [updateContentHandler, hd]

/-- C8 witness: client version 0 against stored version 1 — no conflict, the
overwrite happens. -/
theorem claim_C8_witness :
    (updateContentHandler stC1 "d" "b" (some 0) 7).2 ≠ UpdateContentResult.conflict 1 0
    ∧ updateContentHandler stC1 "d" "b" (some 0) 7 =
        ({ stC1 with
            docs := dbUpdate stC1.docs "d"
              (fun d => { d with content := "b", version := d.version + 1, updatedAt := 7 }),
            cache := hdel stC1.cache "d" },
         .ok "d" "b" (docT.version + 1) 7) := by
  have h := claim_C8 stC1 "d" "b" 7 (some 0) 1 0 (Or.inr rfl)
  exact ⟨h.1, h.2 docT (by decide)⟩

/-- C2: a successful flush of a non-empty queue appends one log row per queued
operation in queue order, performs exactly one content write carrying the last
operation's `finalContent` with the version incremented by exactly 1 (other
documents untouched), deletes the queue, and invalidates the document's cache
entry; and `batchDocumentOperation` appends submissions at the queue's end, so
queue order is submission order. -/
theorem claim_C2 : ∀ (st : ServerState) (d : String) (ops : List FlushOp)
    (lastOp : FlushOp) (doc : DocRecord) (now : Nat),
    alget st.batches d = some ops →
    ops.getLast? = some lastOp →
    alget st.docs d = some doc →
    (flushDocumentOperations st d true now).opLog = st.opLog ++ ops.map toLogEntry
    ∧ alget (flushDocumentOperations st d true now).docs d =
        some { doc with content := lastOp.finalContent, version := doc.version + 1, updatedAt := now }
    ∧ alget (flushDocumentOperations st d true now).batches d = none
    ∧ alget (flushDocumentOperations st d true now).cache d = none
    ∧ (∀ d', d' ≠ d →
        alget (flushDocumentOperations st d true now).docs d' = alget st.docs d')
    ∧ (∀ (st0 : ServerState) (op0 : FlushOp),
        alget (batchDocumentOperation st0 d op0).batches d =
          some ((alget st0.batches d).getD [] ++ [op0])) := by
  intro st d ops lastOp doc now hb hl hd
  have hf : flushDocumentOperations st d true now =
      { st with
          opLog := st.opLog ++ ops.map toLogEntry,
          docs := dbUpdate st.docs d
            (fun x => { x with content := lastOp.finalContent, version := x.version + 1, updatedAt := now }),
          batches := hdel st.batches d,
          cache := hdel st.cache d } := by
    simp [flushDocumentOperations, hb, hl]
  rw [hf]
  refine ⟨rfl, ?_, ?_, ?_, ?_, ?_⟩
  · exact alget_dbUpdate_self _ hd
  · exact alget_hdel_self _ _
  · exact alget_hdel_self _ _
  · intro d' hne
    exact alget_dbUpdate_ne _ _ _ _ hne
  · intro st0 op0
    simp [batchDocumentOperation, alget_hset_self]

/-- C2 witness: a two-operation batch collapses into one version bump and one
content write carrying the second operation's final content. -/
theorem claim_C2_witness :
    (flushDocumentOperations stW "d" true 7).opLog = stW.opLog ++ [opW1, opW2].map toLogEntry
    ∧ alget (flushDocumentOperations stW "d" true 7).docs "d" =
        some { docT with content := "hello", version := docT.version + 1, updatedAt := 7 }
    ∧ alget (flushDocumentOperations stW "d" true 7).batches "d" = none
    ∧ alget (flushDocumentOperations stW "d" true 7).cache "d" = none := by
  have h := claim_C2 stW "d" [opW1, opW2] opW2 docT 7 (by decide) (by decide) (by decide)
  exact ⟨h.1, h.2.1, h.2.2.1, h.2.2.2.1⟩

/-- C5 (amended): a failed flush only logs — no log rows, no content write, no
cache invalidation — and the batch is **retained** in the pending queue rather
than dropped; the retained operations are persisted by the next flush of the
same document (triggered by a later operation's timer or the shutdown hook). -/
theorem claim_C5 : ∀ (st : ServerState) (d : String) (ops : List FlushOp)
    (lastOp : FlushOp) (now now2 : Nat),
    alget st.batches d = some ops →
    ops.getLast? = some lastOp →
    flushDocumentOperations st d false now =
      { st with errLog := st.errLog ++ ["Error flushing document operations"] }
    ∧ (flushDocumentOperations (flushDocumentOperations st d false now) d true now2).opLog =
        st.opLog ++ ops.map toLogEntry := by
  intro st d ops lastOp now now2 hb hl
  have h1 : flushDocumentOperations st d false now =
      { st with errLog := st.errLog ++ ["Error flushing document operations"] } := by
    simp [flushDocumentOperations, hb, hl]
  refine ⟨h1, ?_⟩
  rw [h1]
  have hb2 : alget ({ st with errLog := st.errLog ++ ["Error flushing document operations"] } : ServerState).batches d = some ops := hb
  simp [flushDocumentOperations, hb2, hl]

/-- C5 counterexample: the claim as stated is false — after a failed flush the
pending queue still contains the failed operation, and a subsequent flush
retries and persists it. -/
theorem claim_C5_counterexample :
    alget (flushDocumentOperations stC5 "d" false 3).batches "d" = some [opW1]
    ∧ (flushDocumentOperations (flushDocumentOperations stC5 "d" false 3) "d" true 4).opLog =
        [toLogEntry opW1] := by
  refine ⟨by decide, by decide⟩

/-- C5 witness: the amended theorem applied to a one-operation batch. -/
theorem claim_C5_witness :
    flushDocumentOperations stC5 "d" false 3 =
      { stC5 with errLog := stC5.errLog ++ ["Error flushing document operations"] }
    ∧ (flushDocumentOperations (flushDocumentOperations stC5 "d" false 3) "d" true 4).opLog =
        stC5.opLog ++ [opW1].map toLogEntry := by
  have h := claim_C5 stC5 "d" [opW1] opW1 3 4 (by decide) (by decide)
  exact ⟨h.1, h.2⟩

theorem roomGuard_some {st : ServerState} {connId d : String} {conn : Conn}
    (h1 : alget st.conns connId = some conn)
    (h2 : conn.currentDocument = some d) : roomGuard st connId d = some conn := by
  simp [roomGuard, h1, h2]

theorem mem_roomMembers {conns : List (String × Conn)} {connId : String}
    {conn : Conn} {d : String} (h1 : alget conns connId = some conn)
    (h2 : conn.currentDocument = some d) : connId ∈ roomMembers conns d := by
  have hm := alget_mem h1
  exact List.mem_map.mpr ⟨(connId, conn), List.mem_filter.mpr ⟨hm, by simp [h2]⟩, rfl⟩

theorem chatMessageHandler_pos {st : ServerState} {connId d msg : String}
    {now : Nat} {conn : Conn} (hg : roomGuard st connId d = some conn)
    (h3 : (jsTrim msg).length ≠ 0) :
    chatMessageHandler st connId d msg now =
      ({ st with
          chat := st.chat ++ [⟨st.nextChatId, d, conn.userId, conn.username, jsTrim msg, now⟩],
          nextChatId := st.nextChatId + 1 },
       [⟨.room d, .chatMessage st.nextChatId conn.userId conn.username (jsTrim msg) now⟩]) := by
  have hcond : ¬(msg = "" ∨ (jsTrim msg).length = 0) := by
    rintro (he | he)
    · apply h3; rw [he]; rfl
    · exact h3 he
  simp [chatMessageHandler, hg, hcond]

/-- C4: a guarded `documentEdit` broadcasts via `socket.to(room)` — its
recipient set is exactly the room minus the originating connection (the sender
is never delivered its own edit) — while a persisted `chatMessage` broadcasts
via `io.to(room)` — its recipient set is the entire room, which contains the
sender. -/
theorem claim_C4 : ∀ (st : ServerState) (connId : String) (conn : Conn)
    (data : DocumentEditData) (msg : String) (now : Nat),
    alget st.conns connId = some conn →
    conn.currentDocument = some data.documentId →
    (jsTrim msg).length ≠ 0 →
    (documentEditHandler st connId data now).2 =
      [⟨.roomExcept connId data.documentId,
        .documentEdit conn.userId conn.username data.operation data.content data.title⟩]
    ∧ connId ∉ recipients st.conns (.roomExcept connId data.documentId)
    ∧ (∀ c, c ∈ recipients st.conns (.roomExcept connId data.documentId) ↔
        c ∈ roomMembers st.conns data.documentId ∧ c ≠ connId)
    ∧ (chatMessageHandler st connId data.documentId msg now).2 =
      [⟨.room data.documentId,
        .chatMessage st.nextChatId conn.userId conn.username (jsTrim msg) now⟩]
    ∧ recipients st.conns (.room data.documentId) = roomMembers st.conns data.documentId
    ∧ connId ∈ roomMembers st.conns data.documentId := by
  intro st connId conn data msg now h1 h2 h3
  have hg := roomGuard_some h1 h2
  refine ⟨?_, ?_, ?_, ?_, rfl, mem_roomMembers h1 h2⟩
  · simp [documentEditHandler, hg]
  · simp [recipients, List.mem_filter]
  · intro c
    simp [recipients, List.mem_filter]
  · rw [chatMessageHandler_pos hg h3]

/-- C4 witness: three connections, two in room D; the edit from `c1` reaches
exactly `c2`; the chat from `c1` reaches both. -/
theorem claim_C4_witness :
    (documentEditHandler stC4 "c1" dataC4 9).2 =
      [⟨.roomExcept "c1" "D",
        .documentEdit "u1" "alice" dataC4.operation "x" none⟩]
    ∧ "c1" ∉ recipients stC4.conns (.roomExcept "c1" "D")
    ∧ ("c2" ∈ recipients stC4.conns (.roomExcept "c1" "D") ↔
        "c2" ∈ roomMembers stC4.conns "D" ∧ "c2" ≠ "c1")
    ∧ (chatMessageHandler stC4 "c1" "D" " hi " 9).2 =
      [⟨.room "D", .chatMessage stC4.nextChatId "u1" "alice" (jsTrim " hi ") 9⟩]
    ∧ recipients stC4.conns (.room "D") = roomMembers stC4.conns "D"
    ∧ "c1" ∈ roomMembers stC4.conns "D" := by
  have h := claim_C4 stC4 "c1" { connA with currentDocument := some "D" } dataC4 " hi " 9
    (by decide) (by decide) (by decide)
  exact ⟨h.1, h.2.1, h.2.2.1 "c2", h.2.2.2.1, h.2.2.2.2.1, h.2.2.2.2.2⟩

/-- C10: a guarded `chatMessage` whose text trims to empty is silently
dropped — state unchanged, nothing broadcast; a non-empty message is persisted
trimmed, and the broadcast carries the store-assigned id, the trimmed text,
and the stored creation timestamp. -/
theorem claim_C10 : ∀ (st : ServerState) (connId : String) (conn : Conn)
    (d msg : String) (now : Nat),
    alget st.conns connId = some conn →
    conn.currentDocument = some d →
    ((jsTrim msg).length = 0 → chatMessageHandler st connId d msg now = (st, []))
    ∧ ((jsTrim msg).length ≠ 0 →
        chatMessageHandler st connId d msg now =
          ({ st with
              chat := st.chat ++ [⟨st.nextChatId, d, conn.userId, conn.username, jsTrim msg, now⟩],
              nextChatId := st.nextChatId + 1 },
           [⟨.room d, .chatMessage st.nextChatId conn.userId conn.username (jsTrim msg) now⟩])) := by
  intro st connId conn d msg now h1 h2
  have hg := roomGuard_some h1 h2
  constructor
  · intro hz
    simp [chatMessageHandler, hg, hz]
  · intro hnz
    exact chatMessageHandler_pos hg hnz

/-- C10 witness: a whitespace-only message is dropped; a padded message is
stored and broadcast trimmed with the assigned id and timestamp. -/
theorem claim_C10_witness :
    chatMessageHandler stC4 "c1" "D" "   " 9 = (stC4, [])
    ∧ chatMessageHandler stC4 "c1" "D" " hi " 9 =
        ({ stC4 with
            chat := stC4.chat ++ [⟨stC4.nextChatId, "D", "u1", "alice", jsTrim " hi ", 9⟩],
            nextChatId := stC4.nextChatId + 1 },
         [⟨.room "D", .chatMessage stC4.nextChatId "u1" "alice" (jsTrim " hi ") 9⟩]) := by
  have ha := claim_C10 stC4 "c1" { connA with currentDocument := some "D" } "D" "   " 9
    (by decide) (by decide)
  have hb := claim_C10 stC4 "c1" { connA with currentDocument := some "D" } "D" " hi " 9
    (by decide) (by decide)
  exact ⟨ha.1 (by decide), hb.2 (by decide)⟩

/-- C9: when the sending connection is unknown or its current room differs
from the payload's documentId, every room-scoped handler (`documentEdit`,
`cursorMove`, `chatMessage`, `typing`, `titleChange`, `syncDocument`) returns
with the state unchanged and no emission of any kind — no durable write, no
ephemeral mutation, no broadcast, no error event. -/
theorem claim_C9 : ∀ (st : ServerState) (connId d : String) (now : Nat)
    (op : EditOp) (content : String) (title : Option String)
    (msg cursor ty tTitle tUid tUname : String) (isTy : Bool),
    (∀ c : Conn, alget st.conns connId = some c → c.currentDocument ≠ some d) →
    documentEditHandler st connId ⟨d, op, content, title⟩ now = (st, [])
    ∧ cursorMoveHandler st connId d cursor now = (st, [])
    ∧ chatMessageHandler st connId d msg now = (st, [])
    ∧ typingHandler st connId d isTy ty now = (st, [])
    ∧ titleChangeHandler st connId d tTitle tUid tUname now = (st, [])
    ∧ syncDocumentHandler st connId d = (st, []) := by
  intro st connId d now op content title msg cursor ty tTitle tUid tUname isTy h
  have hg : roomGuard st connId d = none := by
    unfold roomGuard
    cases hc : alget st.conns connId with
    | none => rfl
    | some c => simp [h c hc]
  refine ⟨?_, ?_, ?_, ?_, ?_, ?_⟩
  · simp [documentEditHandler, hg]
  · simp [cursorMoveHandler, hg]
  · simp [chatMessageHandler, hg]
  · simp [typingHandler, hg]
  · simp [titleChangeHandler, hg]
  · simp [syncDocumentHandler, hg]

/-- C9 witness: connection `c3` is connected but sits in no room; every
room-scoped event it sends for document D is a no-op. -/
theorem claim_C9_witness :
    documentEditHandler stC4 "c3" ⟨"D", dataC4.operation, "x", none⟩ 9 = (stC4, [])
    ∧ cursorMoveHandler stC4 "c3" "D" "cur" 9 = (stC4, [])
    ∧ chatMessageHandler stC4 "c3" "D" "hello" 9 = (stC4, [])
    ∧ typingHandler stC4 "c3" "D" true "chat" 9 = (stC4, [])
    ∧ titleChangeHandler stC4 "c3" "D" "T2" "u3" "carol" 9 = (stC4, [])
    ∧ syncDocumentHandler stC4 "c3" "D" = (stC4, []) := by
  have hng : ∀ c : Conn, alget stC4.conns "c3" = some c → c.currentDocument ≠ some "D" := by
    intro c hc
    have h0 : alget stC4.conns "c3" = some connC := by decide
    rw [h0] at hc
    injection hc with hc
    subst hc
    decide
  exact claim_C9 stC4 "c3" "D" 9 dataC4.operation "x" none "hello" "cur" "chat"
    "T2" "u3" "carol" true hng

theorem broadcastDocumentUpdate_not_userLeft (st : ServerState) (d : String) :
    ∀ e ∈ broadcastDocumentUpdate st d, isUserLeftEvt e.event = false := by
  intro e he
  unfold broadcastDocumentUpdate at he
  cases hd : alget st.docs d with
  | none => rw [hd] at he; simp at he
  | some doc =>
    rw [hd] at he
    simp at he
    subst he
    rfl

theorem alget_addUser_self (h : List (String × PresenceEntry)) (u n : String)
    (t : Nat) : alget (addUserToDocument h u n t) u = some ⟨u, n, t⟩ :=
  alget_hset_self _ _ _

/-- C6 (amended): when a connection already in a room joins another document,
the handler only re-points the connection's room (the implicit socket-room
leave); the previous document's presence entry is **not** removed and no
departure notification is emitted before — or after — the new room's
join-side effects (presence insert, `userJoined`, summary broadcast) are
applied. -/
theorem claim_C6 : ∀ (st : ServerState) (connId uid uname docId prev : String)
    (conn : Conn) (now : Nat),
    alget st.conns connId = some conn →
    conn.currentDocument = some prev →
    prev ≠ docId →
    alget (joinDocumentHandler st connId uid uname docId now).1.presence prev =
      alget st.presence prev
    ∧ (∀ e ∈ (joinDocumentHandler st connId uid uname docId now).2,
        isUserLeftEvt e.event = false)
    ∧ alget (joinDocumentHandler st connId uid uname docId now).1.conns connId =
        some { conn with currentDocument := some docId }
    ∧ alget ((alget (joinDocumentHandler st connId uid uname docId now).1.presence docId).getD [])
        uid = some ⟨uid, uname, now⟩ := by
  intro st connId uid uname docId prev conn now h1 h2 hne
  have hj : joinConns st connId docId =
      { st with conns := hset st.conns connId { conn with currentDocument := some docId } } := by
    simp [joinConns, h1]
  refine ⟨?_, ?_, ?_, ?_⟩
  · simp only [joinDocumentHandler, hj]
    exact alget_hset_ne _ _ _ _ hne
  · intro e he
    simp only [joinDocumentHandler] at he
    rcases List.mem_cons.mp he with rfl | he2
    · rfl
    rcases List.mem_cons.mp he2 with rfl | he3
    · rfl
    exact broadcastDocumentUpdate_not_userLeft _ _ e he3
  · simp only [joinDocumentHandler, hj]
    exact alget_hset_self _ _ _
  · simp only [joinDocumentHandler, hj]
    rw [alget_hset_self]
    exact alget_addUser_self _ _ _ _

/-- C6 counterexample: the claim as stated is false — `c1` sits in room A with
a live presence row; joining room B leaves A's presence untouched (the stale
row for `u1` persists), emits no `userLeft`, and still applies B's join-side
effects. -/
theorem claim_C6_counterexample :
    alget (joinDocumentHandler stC6 "c1" "u1" "alice" "B" 10).1.presence "A" =
      some [("u1", ⟨"u1", "alice", 0⟩), ("u2", ⟨"u2", "bob", 0⟩)]
    ∧ ((joinDocumentHandler stC6 "c1" "u1" "alice" "B" 10).2.all
        (fun e => !isUserLeftEvt e.event)) = true
    ∧ alget ((alget (joinDocumentHandler stC6 "c1" "u1" "alice" "B" 10).1.presence "B").getD [])
        "u1" = some ⟨"u1", "alice", 10⟩ := by
  refine ⟨by decide, by decide, by decide⟩

/-- C6 witness: the amended theorem applied to the concrete two-room state. -/
theorem claim_C6_witness :
    alget (joinDocumentHandler stC6 "c1" "u1" "alice" "B" 10).1.presence "A" =
      alget stC6.presence "A"
    ∧ alget (joinDocumentHandler stC6 "c1" "u1" "alice" "B" 10).1.conns "c1" =
        some { connA with currentDocument := some "B" }
    ∧ alget ((alget (joinDocumentHandler stC6 "c1" "u1" "alice" "B" 10).1.presence "B").getD [])
        "u1" = some ⟨"u1", "alice", 10⟩ := by
  have h := claim_C6 stC6 "c1" "u1" "alice" "B" "A" connA 10 (by decide) (by decide)
    (by decide)
  exact ⟨h.1, h.2.2.1, h.2.2.2⟩

end CollabEditor
